import Mathlib

/-!
Verification of the mygit object store, tree/commit codecs, pack reader and
delta applier.  Byte sequences are modelled as `List Nat` (each element a
byte value), Go strings as ASCII byte lists obtained through `ascii`, and
fallible Go code as `Except GoErr`.  Runtime panics (slice out of range,
index out of range) are kept distinct from returned `error` values.
-/

set_option maxRecDepth 100000

namespace MyGit

/-- ASCII bytes of a Lean string literal (all source strings are ASCII). -/
def ascii (s : String) : List Nat := s.data.map Char.toNat

/-- Truncate to an unsigned 32-bit value. -/
def w32 (x : Nat) : Nat := x % 4294967296

/-- Rotate a 32-bit value left by `n` bits. -/
def rotl (n x : Nat) : Nat := (w32 (x <<< n)).lor (x >>> (32 - n))

/-- Big-endian bytes of a 32-bit word. -/
def be32 (n : Nat) : List Nat :=
  [n / 16777216 % 256, n / 65536 % 256, n / 256 % 256, n % 256]

/-- Big-endian bytes of a 64-bit word. -/
def be64 (n : Nat) : List Nat :=
  [n / 72057594037927936 % 256, n / 281474976710656 % 256,
   n / 1099511627776 % 256, n / 4294967296 % 256,
   n / 16777216 % 256, n / 65536 % 256, n / 256 % 256, n % 256]

/-- SHA-1 padding: append 0x80, zeros and the 64-bit bit length so the
total length is a multiple of 64 bytes. -/
def sha1pad (msg : List Nat) : List Nat :=
  let z := (120 - ((msg.length + 1) % 64)) % 64
  msg ++ 128 :: List.replicate z 0 ++ be64 (8 * msg.length)

/-- Big-endian 32-bit word from (up to) four bytes. -/
def beWord (l : List Nat) : Nat :=
  match l with
  | a :: b :: c :: d :: _ => a * 16777216 + b * 65536 + c * 256 + d
  | _ => 0

/-- Group a byte list into big-endian 32-bit words, `fuel` words at most. -/
def group4 : Nat → List Nat → List Nat
  | 0, _ => []
  | _ + 1, [] => []
  | f + 1, l => beWord (l.take 4) :: group4 f (l.drop 4)

/-- Extend the reversed word list by `n` scheduled SHA-1 words. -/
def extendRW (rw : List Nat) : Nat → List Nat
  | 0 => rw
  | n + 1 =>
    extendRW
      (rotl 1 ((((rw.getD 2 0).xor (rw.getD 7 0)).xor (rw.getD 13 0)).xor (rw.getD 15 0)) :: rw) n

/-- The 80 SHA-1 message-schedule words of one 64-byte block. -/
def words80 (block : List Nat) : List Nat :=
  (extendRW (group4 16 block).reverse 64).reverse

/-- SHA-1 round constant. -/
def sha1K (i : Nat) : Nat :=
  if i < 20 then 1518500249
  else if i < 40 then 1859775393
  else if i < 60 then 2400959708
  else 3395469782

/-- SHA-1 round mixing function. -/
def sha1F (i b c d : Nat) : Nat :=
  if i < 20 then (b.land c).lor ((4294967295 - b).land d)
  else if i < 40 then (b.xor c).xor d
  else if i < 60 then ((b.land c).lor (b.land d)).lor (c.land d)
  else (b.xor c).xor d

/-- One SHA-1 round applied to the running five-word state. -/
def sha1Step (st : Nat × Nat × Nat × Nat × Nat) (iw : Nat × Nat) :
    Nat × Nat × Nat × Nat × Nat :=
  let (a, b, c, d, e) := st
  let temp := w32 (rotl 5 a + sha1F iw.1 b c d + e + sha1K iw.1 + iw.2)
  (temp, a, rotl 30 b, c, d)

/-- Compress one 64-byte block into the running hash state. -/
def sha1Block (h : Nat × Nat × Nat × Nat × Nat) (block : List Nat) :
    Nat × Nat × Nat × Nat × Nat :=
  let (a, b, c, d, e) := (words80 block).enum.foldl sha1Step h
  (w32 (h.1 + a), w32 (h.2.1 + b), w32 (h.2.2.1 + c), w32 (h.2.2.2.1 + d), w32 (h.2.2.2.2 + e))

/-- Fold the padded message block by block, `fuel` blocks at most. -/
def sha1Blocks : Nat → (Nat × Nat × Nat × Nat × Nat) → List Nat → Nat × Nat × Nat × Nat × Nat
  | 0, h, _ => h
  | _ + 1, h, [] => h
  | f + 1, h, l => sha1Blocks f (sha1Block h (l.take 64)) (l.drop 64)

/-- SHA-1 digest (20 bytes) of a byte list. -/
def sha1 (msg : List Nat) : List Nat :=
  let p := sha1pad msg
  let h := sha1Blocks (p.length) (1732584193, 4023233417, 2562383102, 271733878, 3285377520) p
  be32 h.1 ++ be32 h.2.1 ++ be32 h.2.2.1 ++ be32 h.2.2.2.1 ++ be32 h.2.2.2.2

/-- Lowercase hex digit. -/
def hexChar (n : Nat) : Char := if n < 10 then Char.ofNat (48 + n) else Char.ofNat (87 + n)

/-- Two lowercase hex digits of one byte. -/
def hexByte (b : Nat) : List Char := [hexChar (b / 16), hexChar (b % 16)]

/-- Lowercase hex string of a byte list, as produced by Go `%x`. -/
def hexStr (bs : List Nat) : String := ⟨(bs.map hexByte).flatten⟩

example : hexStr (sha1 (ascii "blob 0" ++ [0])) = "e69de29bb2d1d6434b8b29ae775ad8c2e48c5391" := by
  decide

example : hexStr (sha1 (ascii "blob 1" ++ [0] ++ [97])) =
    "2e65efe2a145dda7ee51d1741299f848e5bf752e" := by decide

example : hexStr (sha1 (ascii "blob 6" ++ [0] ++ ascii "hello\n")) =
    "ce013625030ba8dba906f756967f9e9ca394464a" := by decide

/-- Outcome of fallible Go code: a returned `error` value, an `io.EOF`-style
read failure, or a runtime panic (slice or index out of range). -/
inductive GoErr
  | errorNew (msg : String)
  | eofErr
  | runtimePanic (msg : String)
deriving DecidableEq, Repr

/-- Decimal digit bytes of a natural number, as Go `%d` renders it. -/
def decAux : Nat → Nat → List Nat
  | 0, _ => []
  | f + 1, n => if n = 0 then [] else decAux f (n / 10) ++ [48 + n % 10]

/-- Go `%d` of a non-negative integer, as ASCII bytes. -/
def goDec (n : Nat) : List Nat := if n = 0 then [48] else decAux n n

/-- Octal digit bytes of a natural number. -/
def octAux : Nat → Nat → List Nat
  | 0, _ => []
  | f + 1, n => if n = 0 then [] else octAux f (n / 8) ++ [48 + n % 8]

/-- Go `%3o`: octal, right-aligned in a field of width three (space padded,
no leading zeros), as used for the permission part of tree entry modes. -/
def goOct3 (n : Nat) : List Nat :=
  let s := if n = 0 then [48] else octAux n n
  List.replicate (3 - s.length) 32 ++ s

/-- Parse decimal digit bytes; `none` on empty input or a non-digit. -/
def parseDecBytes (l : List Nat) : Option Nat :=
  if l = [] then none
  else l.foldl (fun acc b => acc.bind fun v =>
    if 48 ≤ b ∧ b ≤ 57 then some (v * 10 + (b - 48)) else none) (some 0)

/-- Parse octal digit bytes; `none` on empty input or a non-octal digit,
as Go `strconv.ParseInt(s, 8, 64)` behaves on well-formed small inputs. -/
def parseOctBytes (l : List Nat) : Option Nat :=
  if l = [] then none
  else l.foldl (fun acc b => acc.bind fun v =>
    if 48 ≤ b ∧ b ≤ 55 then some (v * 8 + (b - 48)) else none) (some 0)

/-- Declared size in a framed-object header: the decimal digits between the
first space and the first NUL of `type SP size NUL body`. -/
def declaredSize (l : List Nat) : Option Nat :=
  parseDecBytes (((l.dropWhile (· ≠ 32)).drop 1).takeWhile (· ≠ 0))

/-!
Commit codec.  `WriteCommitObject` (src/cmd/mygit/object.go lines 67-77 and
src/cmd/mygit/cmd.go lines 386-396) builds the commit body from the tree
line, parent line, author line, committer line, a blank line and the
message, but frames it with a header whose size field is `len(message)`.
The wall-clock timestamp is passed in as a parameter here. -/

/-- Commit body bytes exactly as `WriteCommitObject` concatenates them. -/
def commitBody (treeSha commitSha message timestamp : String) : List Nat :=
  ascii ("tree " ++ treeSha ++ "\n"
    ++ "parent " ++ commitSha ++ "\n"
    ++ "author test <dummy@example.com> " ++ timestamp ++ "\n"
    ++ "committer test <dummy@example.com> " ++ timestamp ++ "\n\n"
    ++ message ++ "\n")

/-- Commit header bytes as `WriteCommitObject` passes them to `writeObject`:
the size field is the byte length of `message`, not of the body. -/
def commitHeaderGo (message : String) : List Nat :=
  ascii "commit " ++ goDec (ascii message).length ++ [0]

/-!
Object store.  `writeObject` (src/cmd/mygit/object.go lines 79-111) hashes
`header ++ content`, derives the path `objects/xx/yyyy…` from the hex id,
returns immediately when `os.Stat` finds the path present, and otherwise
writes the zlib stream to a fresh file.  The filesystem is an association
list from path to raw file bytes; zlib compression is an external
collaborator passed in as `compress`. -/

/-- Simplistic on-disk store: newest file first. -/
abbrev FS := List (String × List Nat)

/-- Whether a path is present, as `os.Stat` reports in `writeObject`. -/
def fsHas (fs : FS) (p : String) : Bool := fs.any (fun e => e.1 == p)

/-- Path of an object file, `filepath.Join(".git", "objects", sha[:2], sha[2:])`. -/
def objectPath (shaHex : String) : String :=
  ".git/objects/" ++ (shaHex.take 2) ++ "/" ++ (shaHex.drop 2)

/-- The store insert of `writeObject`: hash the framed bytes, return the id,
and write the compressed stream only when the path is absent. -/
def writeObject (compress : List Nat → List Nat) (fs : FS) (header content : List Nat) :
    List Nat × FS :=
  let data := header ++ content
  let sha := sha1 data
  let p := objectPath (hexStr sha)
  if fsHas fs p then (sha, fs) else (sha, (p, compress data) :: fs)

/-!
Tree writer.  `WriteTreeObject` (src/cmd/mygit/object.go lines 16-53 and
src/cmd/mygit/cmd.go lines 335-372) renders every entry with
`fmt.Sprintf("%s%s %s\x00%s", mode, permission, entry.Name(), sha)` where
`sha` has Go type `[20]byte`.  Go's `fmt` treats arrays of `uint8` like
byte slices for the verbs `s`, `q`, `x` and `X` (the byte-array special
case in `fmt.printValue` — the same one that makes `%x` of a `[20]byte`
print 40 hex digits in `writeObject`), so `%s` appends the 20 raw id
bytes.  The functions below reproduce the per-entry byte layout of the
tree buffer. -/

/-- Blob id as computed by `WriteBlobObject`: SHA-1 of `blob <len>\0content`. -/
def blobSha (content : List Nat) : List Nat :=
  sha1 (ascii "blob " ++ goDec content.length ++ [0] ++ content)

/-- Bytes appended to the tree buffer for one entry, mirroring
`treeBuffer.WriteString(fmt.Sprintf("%s%s %s\x00%s", mode, permission, name, sha))`:
mode and permission, a space, the name, a NUL, and the raw 20 bytes of the
child id (`%s` on the `[20]byte` array yields the bytes themselves). -/
def treeEntryBytes (mode permission : List Nat) (name : String) (shaBytes : List Nat) :
    List Nat :=
  mode ++ permission ++ [32] ++ ascii name ++ [0] ++ shaBytes

/-- Tree buffer of a directory of regular files `(name, permBits, content)`:
mode `"100"`, permission `%3o` of the file mode, name, NUL, then the raw
20-byte id of the child blob.  Subdirectory children enter the same
`Sprintf` with mode `"40"`/`"000"`; the flat case suffices here. -/
def writeTreeBodyFlat (files : List (String × Nat × List Nat)) : List Nat :=
  (files.map fun f => treeEntryBytes (ascii "100") (goOct3 f.2.1) f.1 (blobSha f.2.2)).flatten

/-- Header `tree <len>\0` written for the tree buffer. -/
def treeHeaderGo (body : List Nat) : List Nat :=
  ascii "tree " ++ goDec body.length ++ [0]

/-!
cat-file.  `catFileCmd` (src/cmd/mygit/object.go lines 188-212) fetches the
framed bytes through `catObject` (lines 113-129) and prints
`strings.Split(objectContent.String(), "\x00")[1]`: the framed bytes are
split on every NUL byte and only the second fragment is printed. -/

/-- Go `strings.Split(s, "\x00")` on byte lists. -/
def goSplitNul : List Nat → List (List Nat)
  | [] => [[]]
  | b :: rest =>
    if b = 0 then [] :: goSplitNul rest
    else
      match goSplitNul rest with
      | [] => [[b]]
      | g :: gs => (b :: g) :: gs

/-- What `cat-file -p` prints for the framed bytes of a stored object:
fragment 1 of the NUL split; `none` models the index-out-of-range panic
when the framed bytes contain no NUL at all. -/
def catFilePrinted (framed : List Nat) : Option (List Nat) :=
  (goSplitNul framed).get? 1

/-!
Argument handling.  `catFileCmd` (src/cmd/mygit/object.go lines 188-196)
and `lsTreeCmd` (lines 288-296) guard with `len(os.Args) < 3` but read the
identifier from `os.Args[3]`. -/

/-- Identifier extraction of `catFileCmd`: usage error when fewer than three
argv entries, otherwise `os.Args[3]`, which panics when absent. -/
def catFileArg (args : List String) : Except GoErr String :=
  if args.length < 3 then
    .error (.errorNew "specify the sha of blob object: cat-file -p <blob_sha>")
  else
    match args.get? 3 with
    | some s => .ok s
    | none => .error (.runtimePanic "index out of range")

/-- Identifier extraction of `lsTreeCmd`: same guard, same read position. -/
def lsTreeArg (args : List String) : Except GoErr String :=
  if args.length < 3 then
    .error (.errorNew "pass the tree object hash: ls-tree --name-only <tree_sha>")
  else
    match args.get? 3 with
    | some s => .ok s
    | none => .error (.runtimePanic "index out of range")

/-!
Pack reader.  `fetchObjects` (src/cmd/mygit/cmd.go lines 544-576) reads a
packfile buffer, compares the trailing 20 bytes against the SHA-1 of the
preceding bytes with `log.Printf` on mismatch, then iterates `readObject`
from offset 12 until at most 20 bytes remain.  zlib inflation is an
external collaborator passed in as `inflate`, taking the remaining bytes
and returning the decompressed bytes together with how many input bytes the
stream consumed (`none` models a zlib error). -/

/-- Objects reconstructed from a pack: numeric type tag and raw body. -/
structure PackObj where
  typ : Nat
  buf : List Nat
deriving DecidableEq, Repr

/-- The in-session `shaToObj` map, newest entry first. -/
abbrev PackMap := List (String × PackObj)

/-- Lookup in the session map. -/
def lookupObj (st : PackMap) (k : String) : Option PackObj :=
  (st.find? (fun e => e.1 == k)).map (·.2)

/-- Continuation loop of `readObjectTypeAndLen`: every continuation byte is
added wholesale, `num += int(b) << (4 + 7*i)`, without masking off its MSB. -/
def sizeLoop : Nat → List Nat → Nat → Nat → Option (Nat × List Nat)
  | 0, _, _, _ => none
  | _ + 1, [], _, _ => none
  | f + 1, b :: rest, num, i =>
    let num := num + b <<< (4 + 7 * i)
    if b.land 128 = 0 then some (num, rest) else sizeLoop f rest num (i + 1)

/-- Pack entry header decoder `readObjectTypeAndLen` (src/cmd/mygit/cmd.go
lines 678-704): type from bits 4-6 of the first byte, size low bits from
bits 0-3, then the continuation loop above. -/
def readObjectTypeAndLen (l : List Nat) : Option (Nat × Nat × List Nat) :=
  match l with
  | [] => none
  | b :: rest =>
    let objType := (b.land 112) >>> 4
    let num := b.land 15
    if b.land 128 = 0 then some (objType, num, rest)
    else (sizeLoop rest.length rest num 0).map fun p => (objType, p.1, p.2)

/-- Modelled from the spec: the continuation loop of the entry-size decoder
as §4.G describes it, each continuation byte contributing only its low
seven bits (the MSB is the continuation flag and contributes nothing). -/
def specSizeLoop : Nat → List Nat → Nat → Nat → Option (Nat × List Nat)
  | 0, _, _, _ => none
  | _ + 1, [], _, _ => none
  | f + 1, b :: rest, num, i =>
    let num := num + (b.land 127) <<< (4 + 7 * i)
    if b.land 128 = 0 then some (num, rest) else specSizeLoop f rest num (i + 1)

/-- Modelled from the spec: the full entry-header decode of §4.G. -/
def specObjectTypeAndLen (l : List Nat) : Option (Nat × Nat × List Nat) :=
  match l with
  | [] => none
  | b :: rest =>
    let objType := (b.land 112) >>> 4
    let num := b.land 15
    if b.land 128 = 0 then some (objType, num, rest)
    else (specSizeLoop rest.length rest num 0).map fun p => (objType, p.1, p.2)

/-- Go `binary.ReadUvarint`: 7-bit groups, little-endian, continuation on
the MSB, at most ten bytes. -/
def readUvarintAux : Nat → Nat → Nat → List Nat → Option (Nat × List Nat)
  | _, _, _, [] => none
  | i, x, s, b :: rest =>
    if b < 128 then
      if i = 9 ∧ b > 1 then none else some (x + b <<< s, rest)
    else
      if i ≥ 9 then none
      else readUvarintAux (i + 1) (x + (b - 128) <<< s) (s + 7) rest

/-- Read one unsigned LEB128 varint from the head of the list. -/
def readUvarint (l : List Nat) : Option (Nat × List Nat) := readUvarintAux 0 0 0 l

/-- Sequentially read the bytes selected by bits `bits` of the copy opcode,
accumulating `b <<< shift i` for each present byte, absent bytes reading as
zero — the two selection loops of `readDeltified`. -/
def readSelBytes (op : Nat) (shift : Nat → Nat) : List Nat → List Nat →
    Except GoErr (Nat × List Nat)
  | [], l => .ok (0, l)
  | i :: is, l =>
    if (op >>> i).land 1 > 0 then
      match l with
      | [] => .error .eofErr
      | b :: rest =>
        match readSelBytes op shift is rest with
        | .ok (v, rest2) => .ok (v + b <<< shift i, rest2)
        | .error e => .error e
    else readSelBytes op shift is l

/-- Instruction loop of `readDeltified` (src/cmd/mygit/cmd.go lines
731-774).  MSB-clear opcodes copy their low seven bits' worth of literal
bytes from the delta stream; MSB-set opcodes read offset bytes (bits 0-3,
shifts 0/8/16/24) and size bytes (bits 4-6, shifts 0/8/16) and then append
`base[offset : offset+size]` with no check against the slice's length.  A
Go slice expression is bounded by the capacity of the backing array, so
the `base` parameter here is the backing array of the base object's `Buf`
through its capacity: a range inside it is read (bytes past the buffer's
length are the zeroed allocation slack), and only a range beyond the
backing array panics. -/
def deltaLoop (base : List Nat) : Nat → List Nat → List Nat → Except GoErr (List Nat)
  | _, [], acc => .ok acc
  | 0, _, acc => .ok acc
  | f + 1, b :: rest, acc =>
    if b.land 128 = 0 then
      let n := b.land 127
      if rest.length < n then .error .eofErr
      else deltaLoop base f (rest.drop n) (acc ++ rest.take n)
    else
      match readSelBytes b (fun i => i * 8) [0, 1, 2, 3] rest with
      | .error e => .error e
      | .ok (offset, r2) =>
        match readSelBytes b (fun i => (i - 4) * 8) [4, 5, 6] r2 with
        | .error e => .error e
        | .ok (size, r3) =>
          if offset + size ≤ base.length then
            deltaLoop base f r3 (acc ++ (base.drop offset).take size)
          else .error (.runtimePanic "slice bounds out of range")

/-- Delta applier `readDeltified` (src/cmd/mygit/cmd.go lines 718-779):
skip `src_size`, read `dst_size`, run the instruction loop, and reject a
result whose length differs from `dst_size`.  As in `deltaLoop`, `base` is
the backing array of the base object's buffer through its capacity. -/
def readDeltified (delta base : List Nat) : Except GoErr (List Nat) :=
  match readUvarint delta with
  | none => .error .eofErr
  | some (_srcLen, r1) =>
    match readUvarint r1 with
    | none => .error .eofErr
    | some (dstLen, r2) =>
      match deltaLoop base r2.length r2 [] with
      | .error e => .error e
      | .ok res =>
        if res.length ≠ dstLen then .error (.errorNew "Invalid deltified buf")
        else .ok res

/-- Whether an `Except` outcome is a returned `error` value (as opposed to a
success or a runtime panic). -/
def isErrorNew {α : Type} : Except GoErr α → Bool
  | .error (.errorNew _) => true
  | _ => false

/-- Framed bytes of a reconstructed object, `wrapContent` composed with
`typeString`; `none` for type tags other than commit, tree and blob. -/
def wrappedBuf (o : PackObj) : Option (List Nat) :=
  (match o.typ with
   | 1 => some (ascii "commit")
   | 2 => some (ascii "tree")
   | 3 => some (ascii "blob")
   | _ => none).map fun t => t ++ [32] ++ goDec o.buf.length ++ [0] ++ o.buf

/-- The `saveObj` insert: key the object by the hex SHA-1 of its framed
bytes; an invalid type tag surfaces as an `error`. -/
def saveObj (st : PackMap) (o : PackObj) : Except GoErr PackMap :=
  match wrappedBuf o with
  | none => .error (.errorNew "Invalid type")
  | some b => .ok ((hexStr (sha1 b), o) :: st)

/-- One `readObject` step (src/cmd/mygit/cmd.go lines 618-675): decode the
entry header; ref-delta entries resolve their 20-byte base id in the
session map, inflate and apply the delta; ofs-delta is unsupported; plain
entries inflate and must match the declared length.  Returns the remaining
bytes and the updated session map.  The session map stores object contents
only; the capacity slack of the Buffer backing arrays is not tracked here,
so the delta theorems quantify over the backing array explicitly. -/
def readObject (inflate : List Nat → Option (List Nat × Nat)) (l : List Nat)
    (st : PackMap) : Except GoErr (List Nat × PackMap) :=
  match readObjectTypeAndLen l with
  | none => .error .eofErr
  | some (objType, objLen, rest) =>
    if objType = 7 then
      match rest with
      | [] => .error .eofErr
      | _ =>
        let shaHex := hexStr ((rest.take 20) ++ List.replicate (20 - rest.length) 0)
        let rest2 := rest.drop 20
        match lookupObj st shaHex with
        | none => .error (.errorNew "Unknown obj sha")
        | some baseObj =>
          match inflate rest2 with
          | none => .error (.errorNew "zlib")
          | some (dec, used) =>
            match readDeltified dec baseObj.buf with
            | .error e => .error e
            | .ok deltified =>
              match saveObj st ⟨baseObj.typ, deltified⟩ with
              | .error e => .error e
              | .ok st2 => .ok (rest2.drop used, st2)
    else if objType = 6 then .error (.errorNew "Unsupported")
    else
      match inflate rest with
      | none => .error (.errorNew "zlib")
      | some (dec, used) =>
        if objLen ≠ dec.length then .error (.errorNew "Expected obj len mismatch")
        else
          match saveObj st ⟨objType, dec⟩ with
          | .error e => .error e
          | .ok st2 => .ok (rest.drop used, st2)

/-- The entry loop of `fetchObjects`: run `readObject` repeatedly, stopping
once at most 20 bytes (the trailer) remain.  The loop body runs at least
once, exactly as in the source. -/
def readObjectsLoop (inflate : List Nat → Option (List Nat × Nat)) :
    Nat → List Nat → PackMap → Except GoErr PackMap
  | 0, _, st => .ok st
  | f + 1, l, st =>
    match readObject inflate l st with
    | .error e => .error e
    | .ok (l2, st2) =>
      if l2.length ≤ 20 then .ok st2 else readObjectsLoop inflate f l2 st2

/-- Pack ingestion `fetchObjects` (src/cmd/mygit/cmd.go lines 544-576)
given the raw packfile bytes.  The magic, version and object count are only
logged; the trailing checksum is compared against the SHA-1 of the
preceding bytes but a mismatch is only logged too (`log.Printf`), after
which the entry loop runs regardless.  Buffers shorter than the 12-byte
header plus 20-byte trailer panic on the slice expressions. -/
def fetchObjects (inflate : List Nat → Option (List Nat × Nat)) (packfileBuf : List Nat) :
    Except GoErr PackMap :=
  if packfileBuf.length < 12 then .error (.runtimePanic "slice bounds out of range")
  else if packfileBuf.length < 20 then .error (.runtimePanic "slice bounds out of range")
  else
    let checksummed := packfileBuf.take (packfileBuf.length - 20)
    let _trailer := packfileBuf.drop (packfileBuf.length - 20)
    let _computed := sha1 checksummed
    readObjectsLoop inflate packfileBuf.length (packfileBuf.drop 12) []

/-!
Working-tree materialiser.  `parseTree` (src/unnamed/part_000 lines 66-99)
reads entries `mode SP name NUL sha20` until end of buffer; `traverseTree`
(lines 26-64) writes a file for every blob-mode child at
`path.Join(repoPath, curDir, name)` and recurses into tree-mode children.
Neither function inspects the entry name: no check for `/`, NUL, `.` or
`..` exists anywhere on the path. -/

/-- One decoded tree child: mode bytes, name bytes, and the hex id. -/
structure TreeChild where
  mode : List Nat
  name : List Nat
  sha : String
deriving DecidableEq, Repr

/-- Read up to and including a delimiter byte, returning the segment before
the delimiter and the rest; `none` when the delimiter never occurs
(`bufio.ReadString` returning `io.EOF`). -/
def readUntil (delim : Nat) : List Nat → Option (List Nat × List Nat)
  | [] => none
  | b :: rest =>
    if b = delim then some ([], rest)
    else (readUntil delim rest).map fun p => (b :: p.1, p.2)

/-- Entry loop of `parseTree`: mode up to the space (EOF here ends the
loop, silently dropping any trailing bytes), name up to the NUL (EOF here
is an error), then 20 id bytes (an empty remainder is an EOF error; a short
read leaves the zero-initialised tail of the 20-byte buffer in place). -/
def parseTreeLoop : Nat → List Nat → List TreeChild → Except GoErr (List TreeChild)
  | 0, _, acc => .ok acc.reverse
  | f + 1, l, acc =>
    match readUntil 32 l with
    | none => .ok acc.reverse
    | some (mode, r1) =>
      match readUntil 0 r1 with
      | none => .error .eofErr
      | some (name, r2) =>
        match r2 with
        | [] => .error .eofErr
        | _ =>
          let shaBytes := r2.take 20 ++ List.replicate (20 - r2.length) 0
          parseTreeLoop f (r2.drop 20) (⟨mode, name, hexStr shaBytes⟩ :: acc)

/-- Tree decoder `parseTree`. -/
def parseTree (treeBuf : List Nat) : Except GoErr (List TreeChild) :=
  parseTreeLoop (treeBuf.length + 1) treeBuf []

/-- Blob test `isBlob`: the mode starts with `100`. -/
def isBlob (mode : List Nat) : Bool := (ascii "100").isPrefixOf mode

/-- Permission bits `getPerm`: octal parse of the mode after the `100`. -/
def getPerm (mode : List Nat) : Except GoErr Nat :=
  if !isBlob mode then .error (.errorNew "Invalid mode")
  else
    match parseOctBytes (mode.drop 3) with
    | none => .error (.errorNew "ParseInt")
    | some p => .ok p

/-- Go `path.Join`: non-empty components joined with `/` (then cleaned;
cleaning is the identity on the already-clean paths built here). -/
def pathJoin (elems : List String) : String :=
  String.intercalate "/" (elems.filter (· ≠ ""))

/-- Tree walk `traverseTree` over a store mapping hex ids to object bodies.
Returns the files written: path, content and permission bits, in creation
order.  Blob-mode children become file writes at
`path.Join(repoPath, curDir, name)` with no name validation; other children
recurse into `path.Join(curDir, name)`. -/
def traverseTree (store : String → Option (List Nat)) :
    Nat → String → String → String → Except GoErr (List (String × List Nat × Nat))
  | 0, _, _, _ => .error (.errorNew "fuel")
  | fuel + 1, repoPath, curDir, treeSha =>
    match store treeSha with
    | none => .error (.errorNew "NotFound")
    | some treeBuf =>
      match parseTree treeBuf with
      | .error e => .error e
      | .ok children =>
        children.foldlM (fun acc child =>
          if isBlob child.mode then
            match store child.sha with
            | none => .error (.errorNew "NotFound")
            | some blobBuf =>
              match getPerm child.mode with
              | .error e => .error e
              | .ok perm =>
                .ok (acc ++ [(pathJoin [repoPath, curDir, String.mk
                  (child.name.map Char.ofNat)], blobBuf, perm)])
          else
            match traverseTree store fuel repoPath
                (pathJoin [curDir, String.mk (child.name.map Char.ofNat)]) child.sha with
            | .error e => .error e
            | .ok files => .ok (acc ++ files)) []

/-!
Theorems.  One theorem (plus witness or counterexample where required) per
claim of the specification review.
-/

/-- C2.  The framed header written by `WriteCommitObject` declares the byte
length of the message alone, not of the full commit body: for the concrete
commit-tree invocation with tree `4b82…`, parent `3906…`, message `msg`
(3 bytes) and timestamp `1687877654 +0900`, the header declares size 3
while the body (tree line, parent line, author line, committer line, blank
line, message) is 200 bytes long. -/
theorem writeCommitObject_header_size_bug :
    declaredSize (commitHeaderGo "msg") = some 3
    ∧ (commitBody "4b825dc642cb6eb9a060e54bf8d69288fbee4904"
        "39065120688df73291eb9ec890bd5fd72e2bc9f1" "msg" "1687877654 +0900").length = 200
    ∧ (3 : Nat) ≠ 200 := by
  refine ⟨by decide, by decide, by decide⟩

/-- C3.  For a directory containing only `a.txt` with body `a`, the tree
buffer written by `WriteTreeObject` is exactly `100644 a.txt\0` followed by
the 20 raw bytes of the child blob id, and those bytes are the id
`2e65efe2a145dda7ee51d1741299f848e5bf752e` — not its 40-character hex form
and not any other rendering of the byte array. -/
theorem writeTreeObject_raw_sha_bytes :
    writeTreeBodyFlat [("a.txt", 420, [97])]
      = ascii "100644 a.txt" ++ 0 ::
        [46, 101, 239, 226, 161, 69, 221, 167, 238, 81,
         209, 116, 18, 153, 248, 72, 229, 191, 117, 46]
    ∧ hexStr
        [46, 101, 239, 226, 161, 69, 221, 167, 238, 81,
         209, 116, 18, 153, 248, 72, 229, 191, 117, 46]
      = "2e65efe2a145dda7ee51d1741299f848e5bf752e" := by
  refine ⟨by decide, by decide⟩

/-- C6.  On the entry header bytes `0x90 0x80 0x01` the decoder
`readObjectTypeAndLen` returns type 1 and size 4096, because the second
byte's continuation MSB is added into the size; the layout of §4.G, whose
continuation bytes contribute only their low seven bits, gives 2048. -/
theorem readObjectTypeAndLen_msb_bug :
    readObjectTypeAndLen [144, 128, 1] = some (1, 4096, [])
    ∧ specObjectTypeAndLen [144, 128, 1] = some (1, 2048, [])
    ∧ (4096 : Nat) ≠ 2048 := by
  refine ⟨by decide, by decide, by decide⟩

/-- C10.  With exactly three argv entries the guard `len(os.Args) < 3` of
both `catFileCmd` and `lsTreeCmd` passes, and reading the identifier from
`os.Args[3]` panics with an index out of range instead of reporting a
usage error. -/
theorem catFile_lsTree_arg_guard_crash :
    ¬ (["mygit", "cat-file", "-p"].length < 3)
    ∧ catFileArg ["mygit", "cat-file", "-p"] = .error (.runtimePanic "index out of range")
    ∧ ¬ (["mygit", "ls-tree", "--name-only"].length < 3)
    ∧ lsTreeArg ["mygit", "ls-tree", "--name-only"]
        = .error (.runtimePanic "index out of range") := by
  refine ⟨by decide, rfl, by decide, rfl⟩

/-- C4 counterexample.  A copy instruction whose computed size is zero
(opcode `0x80`: no offset bytes, no size bytes) copies zero bytes, not
65536: on base `[1,2,3]` with declared destination size 0 the applier
returns the empty output. -/
theorem readDeltified_zero_size_copies_nothing :
    readDeltified [3, 0, 128] [1, 2, 3] = .ok []
    ∧ ([] : List Nat).length ≠ 65536 := by
  refine ⟨rfl, by decide⟩

/-- C5 counterexample.  A copy instruction whose range `[0,5)` is not
contained in `[0, base.len)` — the base object's body being the 3 bytes
`[1,2,3]` inside a Buffer-backed slice with 61 bytes of zeroed capacity
slack — is not rejected: the cap-bounded slice expression reads the zero
padding, and the applier returns success with `[1,2,3,0,0]`, not a delta
error. -/
theorem readDeltified_oob_copy_succeeds :
    ¬ ((0 : Nat) + 5 ≤ 3)
    ∧ readDeltified [0, 5, 144, 5] ([1, 2, 3] ++ List.replicate 61 0) = .ok [1, 2, 3, 0, 0]
    ∧ isErrorNew (readDeltified [0, 5, 144, 5] ([1, 2, 3] ++ List.replicate 61 0)) = false := by
  refine ⟨by decide, rfl, rfl⟩

/-- C7 counterexample.  For a stored object whose body itself contains a
NUL byte — framed bytes `blob 3\0` followed by `a\0b` — `cat-file -p`
prints only `a`, the fragment of the body before its first NUL, not the
full 3-byte body. -/
theorem catFile_truncates_at_nul :
    catFilePrinted (ascii "blob 3" ++ 0 :: [97, 0, 98]) = some [97]
    ∧ [97] ≠ [97, 0, 98] := by
  refine ⟨rfl, by decide⟩

/-- Splitting a NUL-free list on NUL yields the single fragment. -/
theorem goSplitNul_no_nul (l : List Nat) (h : 0 ∉ l) : goSplitNul l = [l] := by
  induction l with
  | nil => rfl
  | cons b rest ih =>
    have hb : b ≠ 0 := fun hb => h (by simp [hb])
    have hr : 0 ∉ rest := fun hr => h (List.mem_cons_of_mem _ hr)
    simp [goSplitNul, hb, ih hr]

/-- Splitting on NUL peels off a NUL-free head fragment. -/
theorem goSplitNul_append (h t : List Nat) (hh : 0 ∉ h) :
    goSplitNul (h ++ 0 :: t) = h :: goSplitNul t := by
  induction h with
  | nil => simp [goSplitNul]
  | cons b rest ih =>
    have hb : b ≠ 0 := fun hb => hh (by simp [hb])
    have hr : 0 ∉ rest := fun hr => hh (List.mem_cons_of_mem _ hr)
    simp [goSplitNul, hb, ih hr]

/-- C7 (amended).  `cat-file -p` prints the fragment of the framed bytes
between the first and second NUL: for a framed object whose header and
body are NUL-free this is exactly the body (as for the `hello\n` blob),
while a body containing NUL is truncated at it. -/
theorem catFile_prints_nul_free_body (hdr body : List Nat)
    (h1 : 0 ∉ hdr) (h2 : 0 ∉ body) :
    catFilePrinted (hdr ++ 0 :: body) = some body := by
  rw [catFilePrinted, goSplitNul_append hdr body h1, goSplitNul_no_nul body h2]
  rfl

/-- C7 witness: the `hello\n` blob of the spec's first concrete scenario is
printed in full. -/
theorem catFile_prints_nul_free_body_witness :
    catFilePrinted (ascii "blob 6" ++ 0 :: ascii "hello\n") = some (ascii "hello\n") :=
  catFile_prints_nul_free_body (ascii "blob 6") (ascii "hello\n") (by decide) (by decide)

/-- C9.  Writing the same framed object twice returns the same identifier
both times, the second write leaves the store unchanged (the existing file
is not rewritten), and when the object was initially absent exactly one
file with its path is on disk afterwards. -/
theorem writeObject_idempotent (compress : List Nat → List Nat) (fs : FS)
    (header content : List Nat) :
    (writeObject compress (writeObject compress fs header content).2 header content).1
      = (writeObject compress fs header content).1
    ∧ (writeObject compress (writeObject compress fs header content).2 header content).2
      = (writeObject compress fs header content).2
    ∧ (fsHas fs (objectPath (hexStr (sha1 (header ++ content)))) = false →
        ((writeObject compress fs header content).2).countP
          (fun e => e.1 == objectPath (hexStr (sha1 (header ++ content)))) = 1) := by
  by_cases hc : fsHas fs (objectPath (hexStr (sha1 (header ++ content)))) = true
  · refine ⟨?_, ?_, ?_⟩ <;> simp [writeObject, hc]
  · have hc' : fsHas fs (objectPath (hexStr (sha1 (header ++ content)))) = false := by
      simpa using hc
    have hsecond : fsHas ((objectPath (hexStr (sha1 (header ++ content))),
        compress (header ++ content)) :: fs)
        (objectPath (hexStr (sha1 (header ++ content)))) = true := by
      simp [fsHas]
    have hcount : fs.countP
        (fun e => e.1 == objectPath (hexStr (sha1 (header ++ content)))) = 0 := by
      rw [List.countP_eq_zero]
      intro a ha
      by_contra hmem
      have : fsHas fs (objectPath (hexStr (sha1 (header ++ content)))) = true := by
        rw [fsHas, List.any_eq_true]
        exact ⟨a, ha, by simpa using hmem⟩
      rw [this] at hc'
      exact Bool.noConfusion hc'
    refine ⟨?_, ?_, ?_⟩
    · simp [writeObject, hc', hsecond]
    · simp [writeObject, hc', hsecond]
    · intro _
      simp [writeObject, hc', List.countP_cons, hcount]

/-- C9 witness: the empty blob written twice into the empty store. -/
theorem writeObject_idempotent_witness :
    (writeObject id (writeObject id [] (ascii "blob 0" ++ [0]) []).2
        (ascii "blob 0" ++ [0]) []).1
      = (writeObject id [] (ascii "blob 0" ++ [0]) []).1
    ∧ (writeObject id (writeObject id [] (ascii "blob 0" ++ [0]) []).2
        (ascii "blob 0" ++ [0]) []).2
      = (writeObject id [] (ascii "blob 0" ++ [0]) []).2
    ∧ ((writeObject id [] (ascii "blob 0" ++ [0]) []).2).countP
        (fun e => e.1 == objectPath (hexStr (sha1 ((ascii "blob 0" ++ [0]) ++ [])))) = 1 := by
  obtain ⟨a, b, c⟩ := writeObject_idempotent id [] (ascii "blob 0" ++ [0]) []
  exact ⟨a, b, c (by decide)⟩

/-- Reading up to a delimiter splits off a delimiter-free head. -/
theorem readUntil_split (d : Nat) (pre post : List Nat) (h : d ∉ pre) :
    readUntil d (pre ++ d :: post) = some (pre, post) := by
  induction pre with
  | nil => simp [readUntil]
  | cons b rest ih =>
    have hb : b ≠ d := fun hb => h (by simp [hb])
    have hr : d ∉ rest := fun hr => h (List.mem_cons_of_mem _ hr)
    simp [readUntil, hb, ih hr]

/-- An exhausted buffer ends the entry loop with the accumulated children. -/
theorem parseTreeLoop_nil (f : Nat) (acc : List TreeChild) :
    parseTreeLoop f [] acc = .ok acc.reverse := by
  cases f <;> simp [parseTreeLoop, readUntil]

/-- C8 (amended).  `parseTree` performs no validation of entry names: any
space-free mode followed by any NUL-free name — `..`, `.`, or a name
containing `/` included — and 20 id bytes decodes successfully into a
child carrying that name verbatim, and no UnsafePath-style rejection
exists. -/
theorem parseTree_no_name_validation (mode name sha20 : List Nat)
    (hm : 32 ∉ mode) (hn : 0 ∉ name) (hs : sha20.length = 20) :
    parseTree (mode ++ 32 :: name ++ 0 :: sha20)
      = .ok [⟨mode, name, hexStr sha20⟩] := by
  cases sha20 with
  | nil => simp at hs
  | cons a l =>
    have h20 : (a :: l).length = 20 := hs
    have htake : (a :: l).take 20 = a :: l := List.take_of_length_le (by omega)
    have hdrop : (a :: l).drop 20 = [] := List.drop_eq_nil_of_le (by omega)
    unfold parseTree
    simp [parseTreeLoop, readUntil_split 32 mode (name ++ 0 :: (a :: l)) hm,
      readUntil_split 0 name (a :: l) hn, htake, hdrop, h20, parseTreeLoop_nil]

/-- C8 witness: an entry named `..` decodes without any rejection. -/
theorem parseTree_no_name_validation_witness :
    parseTree (ascii "100644" ++ 32 :: ascii ".." ++ 0 :: List.replicate 20 171)
      = .ok [⟨ascii "100644", ascii "..", "abababababababababababababababababababab"⟩] := by
  rw [parseTree_no_name_validation (ascii "100644") (ascii "..") (List.replicate 20 171)
    (by decide) (by decide) (by decide)]
  rfl

/-- Store for the C8 counterexample: a tree whose only entry is a blob
named `a/b`, and that blob's body. -/
def demoStore : String → Option (List Nat) := fun k =>
  if k = "aaaaaaaaaaaaaaaaaaaaaaaaaaaaaaaaaaaaaaaa" then
    some (ascii "100644 a/b" ++ 0 :: List.replicate 20 171)
  else if k = "abababababababababababababababababababab" then some (ascii "hi")
  else none

/-- C8 counterexample.  Materialising a tree entry whose name contains `/`
is not rejected: `traverseTree` succeeds and writes the blob at the nested
path `repo/a/b` that the name should never denote. -/
theorem traverseTree_accepts_slash_name :
    (47 ∈ ascii "a/b")
    ∧ traverseTree demoStore 2 "repo" "" "aaaaaaaaaaaaaaaaaaaaaaaaaaaaaaaaaaaaaaaa"
        = .ok [("repo/a/b", ascii "hi", 420)] := by
  refine ⟨by decide, rfl⟩

/-- C4 (amended).  In a copy instruction the low four opcode bits select
which little-endian offset bytes are present and bits 4-6 select the size
bytes, absent bytes reading as zero — but a computed size of zero copies
zero bytes; no `0x10000` special case exists.  Opcode `0x95` carries offset
bytes 0 and 2 and size byte 0: the applier copies exactly
`size` bytes of the base starting at `offset = o0 + o2·2^16`. -/
theorem readDeltified_copy_selection (o0 o2 s0 : Nat) (base : List Nat)
    (_ho0 : o0 < 256) (_ho2 : o2 < 256) (hs : s0 < 128)
    (hb : o0 + o2 * 65536 + s0 ≤ base.length) :
    readDeltified [0, s0, 149, o0, o2, s0] base
      = .ok ((base.drop (o0 + o2 * 65536)).take s0) := by
  have e16 : o2 <<< 16 = o2 * 65536 := by rw [Nat.shiftLeft_eq]
  have e0a : o0 <<< 0 = o0 := Nat.shiftLeft_zero
  have e0s : s0 <<< 0 = s0 := Nat.shiftLeft_zero
  have h1 : readUvarint [0, s0, 149, o0, o2, s0] = some (0, [s0, 149, o0, o2, s0]) := rfl
  have h2 : readUvarint [s0, 149, o0, o2, s0] = some (s0, [149, o0, o2, s0]) := by
    have hno : ¬ ((0 : Nat) = 9 ∧ s0 > 1) := by omega
    simp [readUvarint, readUvarintAux, hs, hno, e0s]
  have h3 : deltaLoop base ([149, o0, o2, s0] : List Nat).length [149, o0, o2, s0] []
      = if 0 + o2 <<< 16 + o0 <<< 0 + (0 + s0 <<< 0) ≤ base.length
        then .ok ([] ++ (base.drop (0 + o2 <<< 16 + o0 <<< 0)).take (0 + s0 <<< 0))
        else .error (.runtimePanic "slice bounds out of range") := rfl
  have hcond : 0 + o2 <<< 16 + o0 <<< 0 + (0 + s0 <<< 0) ≤ base.length := by
    rw [e16, e0a, e0s]; omega
  have hres : ([] ++ (base.drop (0 + o2 <<< 16 + o0 <<< 0)).take (0 + s0 <<< 0))
      = (base.drop (o0 + o2 * 65536)).take s0 := by
    rw [e16, e0a, e0s, List.nil_append, Nat.zero_add, Nat.zero_add, Nat.add_comm (o2 * 65536) o0]
  have hlen : ((base.drop (o0 + o2 * 65536)).take s0).length = s0 := by
    simp [List.length_take, List.length_drop]
    omega
  unfold readDeltified
  rw [h1]
  simp only [h2, h3, if_pos hcond, hres]
  simp [hlen]

/-- C4 witness: copying one byte from offset 1 of a two-byte base. -/
theorem readDeltified_copy_selection_witness :
    readDeltified [0, 1, 149, 1, 0, 1] [7, 8] = .ok [8] := by
  rw [readDeltified_copy_selection 1 0 1 [7, 8] (by decide) (by decide) (by decide) (by decide)]
  rfl

/-- C5 (amended).  `readDeltified` performs no check of the copy range
against `[0, base.len)`, so an out-of-range copy is never reported as a
delta error: for a base object whose body is `data` inside a backing
array extending to `data ++ pad` (the zeroed capacity slack of the
`bytes.Buffer`), a copy of `s0 > data.length` bytes from offset 0 that
stays within capacity silently reads the padding and returns success,
and only a copy reaching beyond the backing array's capacity ends in a
runtime slice-bounds panic. -/
theorem readDeltified_oob_unchecked (data pad : List Nat) (s0 : Nat)
    (hs : s0 < 128) (hlen : data.length < s0)
    (hcap : s0 ≤ data.length + pad.length) :
    readDeltified [0, s0, 144, s0] (data ++ pad) = .ok ((data ++ pad).take s0)
    ∧ isErrorNew (readDeltified [0, s0, 144, s0] (data ++ pad)) = false
    ∧ readDeltified [0, s0, 144, s0] data
        = .error (.runtimePanic "slice bounds out of range") := by
  have e0s : s0 <<< 0 = s0 := Nat.shiftLeft_zero
  have h1 : readUvarint [0, s0, 144, s0] = some (0, [s0, 144, s0]) := rfl
  have h2 : readUvarint [s0, 144, s0] = some (s0, [144, s0]) := by
    have hno : ¬ ((0 : Nat) = 9 ∧ s0 > 1) := by omega
    simp [readUvarint, readUvarintAux, hs, hno, e0s]
  have h3 : deltaLoop (data ++ pad) ([144, s0] : List Nat).length [144, s0] []
      = if 0 + (0 + s0 <<< 0) ≤ (data ++ pad).length
        then .ok ([] ++ ((data ++ pad).drop 0).take (0 + s0 <<< 0))
        else .error (.runtimePanic "slice bounds out of range") := rfl
  have hcond : 0 + (0 + s0 <<< 0) ≤ (data ++ pad).length := by
    rw [e0s, List.length_append]; omega
  have hres : ([] ++ ((data ++ pad).drop 0).take (0 + s0 <<< 0)) = (data ++ pad).take s0 := by
    rw [e0s, List.nil_append, List.drop_zero, Nat.zero_add]
  have htk : ((data ++ pad).take s0).length = s0 := by
    simp [List.length_take, List.length_append]
    omega
  have hmain : readDeltified [0, s0, 144, s0] (data ++ pad) = .ok ((data ++ pad).take s0) := by
    unfold readDeltified
    rw [h1]
    simp only [h2, h3, if_pos hcond, hres]
    simp [htk]
  have h3b : deltaLoop data ([144, s0] : List Nat).length [144, s0] []
      = if 0 + (0 + s0 <<< 0) ≤ data.length
        then .ok ([] ++ (data.drop 0).take (0 + s0 <<< 0))
        else .error (.runtimePanic "slice bounds out of range") := rfl
  have hcondb : ¬ (0 + (0 + s0 <<< 0) ≤ data.length) := by
    rw [e0s]; omega
  have hpanic : readDeltified [0, s0, 144, s0] data
      = .error (.runtimePanic "slice bounds out of range") := by
    unfold readDeltified
    rw [h1]
    simp only [h2, h3b, if_neg hcondb]
  exact ⟨hmain, by rw [hmain]; rfl, hpanic⟩

/-- C5 witness: a five-byte copy against a three-byte body succeeds inside
a 64-byte backing array and panics when the backing array is the bare
three bytes. -/
theorem readDeltified_oob_unchecked_witness :
    readDeltified [0, 5, 144, 5] ([1, 2, 3] ++ List.replicate 61 0)
      = .ok (([1, 2, 3] ++ List.replicate 61 0).take 5)
    ∧ isErrorNew (readDeltified [0, 5, 144, 5] ([1, 2, 3] ++ List.replicate 61 0)) = false
    ∧ readDeltified [0, 5, 144, 5] [1, 2, 3]
        = .error (.runtimePanic "slice bounds out of range") :=
  readDeltified_oob_unchecked [1, 2, 3] (List.replicate 61 0) 5
    (by decide) (by decide) (by decide)

/-- Bytes of a single-entry packfile up to (but excluding) the 20-byte
trailer: magic `PACK`, version 2, one object, an undeltified blob entry of
declared size 1 (header byte `0x31`) followed by its 9-byte zlib stream
for the body `a`. -/
def packHead : List Nat :=
  ascii "PACK" ++ [0, 0, 0, 2] ++ [0, 0, 0, 1]
    ++ [49] ++ [120, 156, 75, 4, 0, 0, 98, 0, 98]

/-- The zlib collaborator for that stream: inflating yields the byte `a`
after consuming the 9 stream bytes. -/
def inflA : List Nat → Option (List Nat × Nat) := fun _ => some ([97], 9)

/-- C1 counterexample.  A packfile whose 20 trailing bytes are all zero —
different from the SHA-1 of the preceding bytes — is not rejected:
`fetchObjects` returns success and the blob from the pack is kept in the
session store under its id `2e65…`. -/
theorem fetchObjects_bad_trailer_keeps_object :
    sha1 packHead ≠ List.replicate 20 0
    ∧ fetchObjects inflA (packHead ++ List.replicate 20 0)
        = .ok [("2e65efe2a145dda7ee51d1741299f848e5bf752e", ⟨3, [97]⟩)] := by
  refine ⟨by decide, rfl⟩

/-- C1 (amended).  The trailing-checksum comparison in `fetchObjects` only
logs: whatever 20-byte trailer follows the entries — matching or not — the
reader continues past the comparison, parses the entries and keeps their
objects, returning success. -/
theorem fetchObjects_trailer_independent (t : List Nat) (h : t.length = 20) :
    fetchObjects inflA (packHead ++ t)
      = .ok [("2e65efe2a145dda7ee51d1741299f848e5bf752e", ⟨3, [97]⟩)] := by
  have h22 : packHead.length = 22 := by decide
  have h42 : (packHead ++ t).length = 42 := by rw [List.length_append, h22, h]
  unfold fetchObjects
  rw [h42]
  norm_num
  have hdrop : (packHead ++ t).drop 12 = [49, 120, 156, 75, 4, 0, 0, 98, 0, 98] ++ t := rfl
  rw [hdrop]
  have hstep : readObjectsLoop inflA 42 ([49, 120, 156, 75, 4, 0, 0, 98, 0, 98] ++ t) []
      = if t.length ≤ 20
        then Except.ok
          ([("2e65efe2a145dda7ee51d1741299f848e5bf752e", (⟨3, [97]⟩ : PackObj))] : PackMap)
        else readObjectsLoop inflA 41 t
          [("2e65efe2a145dda7ee51d1741299f848e5bf752e", ⟨3, [97]⟩)] := rfl
  rw [hstep, h]
  norm_num

/-- C1 witness: a trailer of twenty `0x01` bytes. -/
theorem fetchObjects_trailer_independent_witness :
    fetchObjects inflA (packHead ++ List.replicate 20 1)
      = .ok [("2e65efe2a145dda7ee51d1741299f848e5bf752e", ⟨3, [97]⟩)] :=
  fetchObjects_trailer_independent (List.replicate 20 1) (by decide)

end MyGit
